import Mathlib

/-!
Verification of the user-management routes (`app/routers/user_routes.py`)
against the natural-language specification.

Python strings are embedded as `List Char`; machine state (the record
store) as a `List UserRecord`; fallible routes return `Except`.
-/

/-- Role enum (`app.models.user_model.UserRole`); the spec lists these
members and notes the exact member set is external. -/
inductive UserRole where
  | ADMIN
  | MANAGER
  | AUTHENTICATED
  | ANONYMOUS
deriving DecidableEq, Repr

/-- Display-name string of a role, as `str(user.role.name)` in `login`. -/
def UserRole.name : UserRole → List Char
  | .ADMIN => 'A' :: 'D' :: 'M' :: 'I' :: 'N' :: []
  | .MANAGER => 'M' :: 'A' :: 'N' :: 'A' :: 'G' :: 'E' :: 'R' :: []
  | .AUTHENTICATED =>
      'A' :: 'U' :: 'T' :: 'H' :: 'E' :: 'N' :: 'T' :: 'I' :: 'C' :: 'A' :: 'T' :: 'E' :: 'D' :: []
  | .ANONYMOUS => 'A' :: 'N' :: 'O' :: 'N' :: 'Y' :: 'M' :: 'O' :: 'U' :: 'S' :: []

/-- A stored user record, per the spec data model (section 3) and the
attributes read by `public_search_users` / `admin_list_users`.
Optional text fields are nullable; `created_at` is an abstract ordered
timestamp. -/
structure UserRecord where
  id : List Char
  email : List Char
  nickname : Option (List Char)
  first_name : Option (List Char)
  last_name : Option (List Char)
  bio : Option (List Char)
  role : UserRole
  created_at : Nat
  is_professional : Bool
  profile_picture_url : Option (List Char)
  github_profile_url : Option (List Char)
  linkedin_profile_url : Option (List Char)
deriving DecidableEq, Repr

/-- `_safe_nick` from `public_search_users`:
`s = s or ""; return s if len(s) >= 3 else (s + "___")[:3]`. -/
def safe_nick (s : Option (List Char)) : List Char :=
  let t := s.getD []
  if 3 ≤ t.length then t else (t ++ ('_' :: '_' :: '_' :: [])).take 3

/-- The public view built by `public_search_users` for each item: the
literal dict validated into `UserResponse` (nickname run through
`_safe_nick`, every other field copied, missing attributes defaulted). -/
structure PublicView where
  id : List Char
  email : List Char
  nickname : List Char
  first_name : Option (List Char)
  last_name : Option (List Char)
  bio : Option (List Char)
  profile_picture_url : Option (List Char)
  github_profile_url : Option (List Char)
  linkedin_profile_url : Option (List Char)
  role : UserRole
  is_professional : Bool
deriving DecidableEq, Repr

/-- `projectPublic`: the per-record shaping loop of `public_search_users`
(lines 281-298 of `user_routes.py`). -/
def projectPublic (u : UserRecord) : PublicView :=
  { id := u.id
    email := u.email
    nickname := safe_nick u.nickname
    first_name := u.first_name
    last_name := u.last_name
    bio := u.bio
    profile_picture_url := u.profile_picture_url
    github_profile_url := u.github_profile_url
    linkedin_profile_url := u.linkedin_profile_url
    role := u.role
    is_professional := u.is_professional }

lemma safe_nick_short (t : List Char) (h : t.length < 3) :
    safe_nick (some t) = t ++ List.replicate (3 - t.length) '_' := by
  match t, h with
  | [], _ => rfl
  | [a], _ => rfl
  | [a, b], _ => rfl

lemma safe_nick_long (t : List Char) (h : 3 ≤ t.length) :
    safe_nick (some t) = t := by
  simp [safe_nick, h]

lemma safe_nick_length (s : Option (List Char)) : 3 ≤ (safe_nick s).length := by
  rcases s with _ | t
  · decide
  · by_cases h : 3 ≤ t.length
    · rw [safe_nick_long t h]; exact h
    · rw [safe_nick_short t (by omega)]
      simp [List.length_append]
      omega

/-- C1: the public projection pads the nickname: a null or short (< 3)
nickname is right-padded with '_' to exactly length 3, a nickname of
length ≥ 3 is returned unchanged, and the projected nickname is never
shorter than 3 characters. -/
theorem projectPublic_nickname_padding (u : UserRecord) :
    3 ≤ (projectPublic u).nickname.length
    ∧ (u.nickname = none → (projectPublic u).nickname = List.replicate 3 '_')
    ∧ (∀ t, u.nickname = some t → t.length < 3 →
        (projectPublic u).nickname = t ++ List.replicate (3 - t.length) '_')
    ∧ (∀ t, u.nickname = some t → 3 ≤ t.length →
        (projectPublic u).nickname = t) := by
  refine ⟨safe_nick_length u.nickname, ?_, ?_, ?_⟩
  · intro h; simp [projectPublic, h, safe_nick]
  · intro t ht hlt; simp only [projectPublic, ht]; exact safe_nick_short t hlt
  · intro t ht hge; simp only [projectPublic, ht]; exact safe_nick_long t hge

/-- A concrete record with nickname "ab", used in witnesses. -/
def recAB : UserRecord :=
  { id := 'u' :: '1' :: []
    email := 'a' :: '@' :: 'x' :: []
    nickname := some ('a' :: 'b' :: [])
    first_name := none
    last_name := none
    bio := none
    role := UserRole.AUTHENTICATED
    created_at := 0
    is_professional := false
    profile_picture_url := none
    github_profile_url := none
    linkedin_profile_url := none }

/-- C1 witness: at a record with nickname "ab", the projection yields
"ab_" of length 3. -/
theorem projectPublic_nickname_padding_witness :
    (projectPublic recAB).nickname = 'a' :: 'b' :: '_' :: []
    ∧ 3 ≤ (projectPublic recAB).nickname.length := by
  have h := projectPublic_nickname_padding recAB
  refine ⟨?_, h.1⟩
  have := h.2.2.1 ('a' :: 'b' :: []) rfl (by decide)
  simpa using this

/-- Python lowercase on the character-list embedding of strings. -/
def lowerStr (s : List Char) : List Char := s.map Char.toLower

/-- `needle` occurs at the start of `hay` (Python prefix test). -/
def startsWithChars : List Char → List Char → Bool
  | [], _ => true
  | _ :: _, [] => false
  | a :: s, b :: t => (a == b) && startsWithChars s t

/-- Python's substring test `needle in hay` on the character-list
embedding. -/
def containsSub (needle : List Char) : List Char → Bool
  | [] => needle.isEmpty
  | b :: t => startsWithChars needle (b :: t) || containsSub needle t

/-- Modelled from the spec: the free-text predicate of `search_users`
(`app/services/user_service.py`, not under src/). Spec section 4.1 step 2:
the text appears, case-insensitively, as a substring of `email`,
`firstName`, `lastName`, or `bio` (null fields treated as empty; OR
across fields). -/
def freeTextMatch (t : List Char) (u : UserRecord) : Bool :=
  containsSub (lowerStr t) (lowerStr u.email)
  || containsSub (lowerStr t) (lowerStr (u.first_name.getD []))
  || containsSub (lowerStr t) (lowerStr (u.last_name.getD []))
  || containsSub (lowerStr t) (lowerStr (u.bio.getD []))

/-- Modelled from the spec: the combined retention predicate of
`search_users` (not under src/). Spec section 4.1 steps 2-3: AND between
the free-text group and the role group, each skipped when absent. -/
def matchesQuery (q : Option (List Char)) (role : Option UserRole)
    (u : UserRecord) : Bool :=
  (match q with
   | none => true
   | some t => freeTextMatch t u)
  && (match role with
      | none => true
      | some r => u.role == r)

/-- Modelled from the spec: the filtering stage of `search_users` (not
under src/). Spec section 4.1 steps 1-3: start from all records, retain
those satisfying both filter groups. -/
def searchFiltered (db : List UserRecord) (q : Option (List Char))
    (role : Option UserRole) : List UserRecord :=
  db.filter (fun u => matchesQuery q role u)

/-- The enumerated sort fields (`created_at|email|nickname|last_name`). -/
inductive SortField where
  | created_at
  | email
  | nickname
  | last_name
deriving DecidableEq, Repr

/-- The enumerated sort orders (`asc|desc`). -/
inductive SortOrder where
  | asc
  | desc
deriving DecidableEq, Repr

/-- Lexicographic less-or-equal on the character-list embedding. -/
def strLe : List Char → List Char → Bool
  | [], _ => true
  | _ :: _, [] => false
  | a :: s, b :: t => if a = b then strLe s t else decide (a < b)

/-- Comparison on the sort key of a record, per sort field; optional
text keys compare on the null-defaulted value. -/
def sortKeyLe (f : SortField) (u v : UserRecord) : Bool :=
  match f with
  | .created_at => decide (u.created_at ≤ v.created_at)
  | .email => strLe u.email v.email
  | .nickname => strLe (u.nickname.getD []) (v.nickname.getD [])
  | .last_name => strLe (u.last_name.getD []) (v.last_name.getD [])

/-- Insertion step of the ordering stage. -/
def insertLe (le : UserRecord → UserRecord → Bool) (u : UserRecord) :
    List UserRecord → List UserRecord
  | [] => u :: []
  | v :: vs => if le u v then u :: v :: vs else v :: insertLe le u vs

/-- Modelled from the spec: the ordering stage of `search_users` (not
under src/). Spec section 4.1 step 5: order the filtered set by the sort
field, applying the sort order; the tie-break is unspecified there, so
this is a stable insertion sort on the key. -/
def sortRecords (f : SortField) (o : SortOrder) :
    List UserRecord → List UserRecord
  | [] => []
  | u :: us =>
      insertLe
        (fun a b =>
          match o with
          | .asc => sortKeyLe f a b
          | .desc => sortKeyLe f b a)
        u (sortRecords f o us)

/-- Modelled from the spec: `search_users`
(`app/services/user_service.py`, not under src/; only its caller
`public_search_users` is). Spec section 4.1: filter, take `total` before
pagination, order, then apply offset `(page - 1) * size` and limit
`size`. -/
def search_users (db : List UserRecord) (q : Option (List Char))
    (role : Option UserRole) (page size : Nat) (sort : SortField)
    (order : SortOrder) : List UserRecord × Nat :=
  let filtered := searchFiltered db q role
  let ordered := sortRecords sort order filtered
  ((ordered.drop ((page - 1) * size)).take size, filtered.length)

lemma insertLe_length (le : UserRecord → UserRecord → Bool)
    (u : UserRecord) (l : List UserRecord) :
    (insertLe le u l).length = l.length + 1 := by
  induction l with
  | nil => rfl
  | cons v vs ih =>
      simp only [insertLe]
      by_cases h : le u v = true
      · simp [h]
      · simp [h, ih]

lemma sortRecords_length (f : SortField) (o : SortOrder)
    (l : List UserRecord) : (sortRecords f o l).length = l.length := by
  induction l with
  | nil => rfl
  | cons u us ih => simp [sortRecords, insertLe_length, ih]

/-- C2: for a validated query (page ≥ 1, 1 ≤ size ≤ 100), the result
items are the offset `(page - 1) * size` / limit `size` window of the
filtered, ordered record set, so at most `size` items are returned. -/
theorem search_users_items_bounded (db : List UserRecord)
    (q : Option (List Char)) (role : Option UserRole) (page size : Nat)
    (sort : SortField) (order : SortOrder)
    (hpage : 1 ≤ page) (hsize1 : 1 ≤ size) (hsize2 : size ≤ 100) :
    (search_users db q role page size sort order).1
      = ((sortRecords sort order (searchFiltered db q role)).drop
          ((page - 1) * size)).take size
    ∧ (search_users db q role page size sort order).1.length ≤ size := by
  refine ⟨rfl, ?_⟩
  simp only [search_users, List.length_take]
  exact min_le_left _ _

/-- C2 witness: on a one-record store with page 1, size 5 the bound
holds. -/
theorem search_users_items_bounded_witness :
    (search_users (recAB :: []) none none 1 5 SortField.created_at
      SortOrder.desc).1.length ≤ 5 :=
  (search_users_items_bounded (recAB :: []) none none 1 5
    SortField.created_at SortOrder.desc (by decide) (by decide)
    (by decide)).2

/-- C3: `total` is the count of records after filtering and before
pagination, hence identical for every page (and size/sort) value; a page
beyond the last page yields an empty items list with that same total. -/
theorem search_users_total_invariant (db : List UserRecord)
    (q : Option (List Char)) (role : Option UserRole)
    (page size page' size' : Nat) (sort sort' : SortField)
    (order order' : SortOrder) :
    (search_users db q role page size sort order).2
      = (searchFiltered db q role).length
    ∧ (search_users db q role page size sort order).2
      = (search_users db q role page' size' sort' order').2
    ∧ ((searchFiltered db q role).length ≤ (page - 1) * size →
        (search_users db q role page size sort order).1 = []) := by
  refine ⟨rfl, rfl, ?_⟩
  intro h
  simp only [search_users]
  rw [List.drop_eq_nil_of_le, List.take_nil]
  rw [sortRecords_length]
  exact h

/-- C3 witness: one matching record, page 3 of size 5 is past the end:
items are empty and the total still counts the filtered record. -/
theorem search_users_total_invariant_witness :
    (search_users (recAB :: []) none none 3 5 SortField.email
        SortOrder.asc).1 = []
    ∧ (search_users (recAB :: []) none none 3 5 SortField.email
        SortOrder.asc).2
      = (search_users (recAB :: []) none none 1 5 SortField.email
          SortOrder.asc).2 := by
  have h := search_users_total_invariant (recAB :: []) none none 3 5 1 5
    SortField.email SortField.email SortOrder.asc SortOrder.asc
  exact ⟨h.2.2 (by decide), h.2.1⟩

lemma freeTextMatch_iff (t : List Char) (u : UserRecord) :
    freeTextMatch t u = true ↔
      (containsSub (lowerStr t) (lowerStr u.email) = true
       ∨ containsSub (lowerStr t) (lowerStr (u.first_name.getD [])) = true
       ∨ containsSub (lowerStr t) (lowerStr (u.last_name.getD [])) = true
       ∨ containsSub (lowerStr t) (lowerStr (u.bio.getD [])) = true) := by
  simp [freeTextMatch, Bool.or_eq_true, or_assoc]

lemma matchesQuery_iff (q : Option (List Char)) (role : Option UserRole)
    (u : UserRecord) :
    matchesQuery q role u = true ↔
      (∀ t, q = some t → freeTextMatch t u = true)
      ∧ (∀ r, role = some r → u.role = r) := by
  cases q <;> cases role <;> simp [matchesQuery, beq_iff_eq]

lemma searchFiltered_mem (db : List UserRecord) (q : Option (List Char))
    (role : Option UserRole) (u : UserRecord) :
    u ∈ searchFiltered db q role ↔
      u ∈ db
      ∧ (∀ t, q = some t → freeTextMatch t u = true)
      ∧ (∀ r, role = some r → u.role = r) := by
  simp only [searchFiltered, List.mem_filter, matchesQuery_iff]

/-- C4: a record is retained by the filter iff it is in the store and
satisfies both groups: when free text is present it occurs
case-insensitively in email, first name, last name or bio (null fields
as empty, OR across fields), and when a role filter is present the
record's role equals it; with roleFilter ADMIN only ADMIN records
remain. -/
theorem searchFiltered_retains_iff (db : List UserRecord)
    (q : Option (List Char)) (role : Option UserRole) (u : UserRecord) :
    (u ∈ searchFiltered db q role ↔
      u ∈ db
      ∧ (∀ t, q = some t →
          (containsSub (lowerStr t) (lowerStr u.email) = true
           ∨ containsSub (lowerStr t) (lowerStr (u.first_name.getD [])) = true
           ∨ containsSub (lowerStr t) (lowerStr (u.last_name.getD [])) = true
           ∨ containsSub (lowerStr t) (lowerStr (u.bio.getD [])) = true))
      ∧ (∀ r, role = some r → u.role = r))
    ∧ (∀ v, v ∈ searchFiltered db q (some UserRole.ADMIN) →
        v.role = UserRole.ADMIN) := by
  constructor
  · rw [searchFiltered_mem]
    constructor
    · rintro ⟨hdb, hq, hr⟩
      exact ⟨hdb, fun t ht => (freeTextMatch_iff t u).1 (hq t ht), hr⟩
    · rintro ⟨hdb, hq, hr⟩
      exact ⟨hdb, fun t ht => (freeTextMatch_iff t u).2 (hq t ht), hr⟩
  · intro v hv
    rw [searchFiltered_mem] at hv
    exact hv.2.2 _ rfl

/-- A concrete ADMIN record whose bio contains "python". -/
def recPy : UserRecord :=
  { id := 'u' :: '2' :: []
    email := 'j' :: 'o' :: 'h' :: 'n' :: '@' :: 'e' :: 'x' :: []
    nickname := some ('j' :: 'o' :: 'h' :: 'n' :: [])
    first_name := some ('J' :: 'o' :: 'h' :: 'n' :: [])
    last_name := some ('A' :: 'l' :: 'p' :: 'h' :: 'a' :: [])
    bio := some ('p' :: 'y' :: 't' :: 'h' :: 'o' :: 'n' :: ' ' :: 'd' :: 'e' :: 'v' :: [])
    role := UserRole.ADMIN
    created_at := 1
    is_professional := true
    profile_picture_url := none
    github_profile_url := none
    linkedin_profile_url := none }

/-- A concrete AUTHENTICATED record whose bio contains "golang". -/
def recGo : UserRecord :=
  { id := 'u' :: '3' :: []
    email := 'j' :: 'a' :: 'n' :: 'e' :: '@' :: 'e' :: 'x' :: []
    nickname := some ('j' :: 'a' :: 'n' :: 'e' :: [])
    first_name := some ('J' :: 'a' :: 'n' :: 'e' :: [])
    last_name := some ('B' :: 'e' :: 't' :: 'a' :: [])
    bio := some ('g' :: 'o' :: 'l' :: 'a' :: 'n' :: 'g' :: ' ' :: 'd' :: 'e' :: 'v' :: [])
    role := UserRole.AUTHENTICATED
    created_at := 2
    is_professional := false
    profile_picture_url := none
    github_profile_url := none
    linkedin_profile_url := none }

/-- The query text "python". -/
def qPython : List Char := 'p' :: 'y' :: 't' :: 'h' :: 'o' :: 'n' :: []

/-- C4 witness: with free text "python" and role filter ADMIN over the
two-record store, the python-bio ADMIN record is retained. -/
theorem searchFiltered_retains_iff_witness :
    recPy ∈ searchFiltered (recPy :: recGo :: []) (some qPython)
      (some UserRole.ADMIN) := by
  refine ((searchFiltered_retains_iff (recPy :: recGo :: []) (some qPython)
    (some UserRole.ADMIN) recPy).1).2 ⟨by decide, ?_, ?_⟩
  · rintro t ht
    cases ht
    right; right; right
    decide
  · rintro r hr
    cases hr
    rfl

/-- Modelled from the spec: the admin view shape (the `UserResponse`
schema in `app/schemas/user_schemas.py` is not under src/). Spec
section 4.1 `projectAdmin`: id as string, email, role name string,
unpadded nullable nickname, first name, last name, bio — no URL
fields. -/
structure AdminView where
  id : List Char
  email : List Char
  role : List Char
  nickname : Option (List Char)
  first_name : Option (List Char)
  last_name : Option (List Char)
  bio : Option (List Char)
deriving DecidableEq, Repr

/-- `projectAdmin`: the admin projection of a record (the
`UserResponse.model_validate(u)` of `admin_list_users`), shaped per the
spec as the schema itself is not under src/. -/
def projectAdmin (u : UserRecord) : AdminView :=
  { id := u.id
    email := u.email
    role := u.role.name
    nickname := u.nickname
    first_name := u.first_name
    last_name := u.last_name
    bio := u.bio }

/-- `admin_list_users` page computation (line 247 of `user_routes.py`):
`skip // limit + 1` on Python ints, i.e. floor division; `limit = 0`
raises ZeroDivisionError, embedded as `none`. `skip` and `limit` are
plain int query parameters with no range constraint, so every integer
pair is accepted here. -/
def adminListPage (skip limit : Int) : Option Int :=
  if limit = 0 then none else some (Int.fdiv skip limit + 1)

/-- The `admin_list_users` route as a state transformer on the record
store: count, read a slice (`UserService.list_users` is not under src/,
modelled from the spec as an offset/limit read), project each record
with `projectAdmin`, compute the page. No write call occurs; the store
is returned unchanged. `none` is the `limit = 0` ZeroDivisionError. -/
def admin_list_users (db : List UserRecord) (skip limit : Int) :
    Option (List UserRecord × (List AdminView × Nat × Int × Nat)) :=
  match adminListPage skip limit with
  | none => none
  | some pg =>
      let items := ((db.drop skip.toNat).take limit.toNat).map projectAdmin
      some (db, (items, db.length, pg, items.length))

/-- The `public_search_users` route as a state transformer on the record
store: read via `search_users`, shape each item with `projectPublic`,
return `(items, total, page, size)`. No write call occurs; the store is
returned unchanged. -/
def public_search_users (db : List UserRecord) (q : Option (List Char))
    (role : Option UserRole) (page size : Nat) (sort : SortField)
    (order : SortOrder) :
    List UserRecord × (List PublicView × Nat × Nat × Nat) :=
  let r := search_users db q role page size sort order
  (db, (r.1.map projectPublic, r.2, page, size))

/-- C5: the admin projection produces exactly id, email, role name
string, raw (unpadded, nullable) nickname, first name, last name and
bio — the `AdminView` shape has no URL fields — and the admin list
route's items are exactly these projections of the sliced records. -/
theorem projectAdmin_fields (u : UserRecord) (db : List UserRecord)
    (skip limit : Int) :
    projectAdmin u
      = AdminView.mk u.id u.email u.role.name u.nickname u.first_name
          u.last_name u.bio
    ∧ (projectAdmin u).nickname = u.nickname
    ∧ (∀ st resp, admin_list_users db skip limit = some (st, resp) →
        resp.1 = ((db.drop skip.toNat).take limit.toNat).map projectAdmin) := by
  refine ⟨rfl, rfl, ?_⟩
  intro st resp h
  simp only [admin_list_users, adminListPage] at h
  by_cases hl : limit = 0
  · simp [hl] at h
  · simp only [hl, if_false] at h
    cases h
    rfl

/-- C5 witness: at a concrete record and a concrete one-record store the
projection keeps the short nickname "ab" unpadded and the route items
are the projections. -/
theorem projectAdmin_fields_witness :
    (projectAdmin recAB).nickname = some ('a' :: 'b' :: [])
    ∧ projectAdmin recAB :: []
      = ((((recAB :: []).drop (0 : Int).toNat).take
          (10 : Int).toNat).map projectAdmin) := by
  have h := projectAdmin_fields recAB (recAB :: []) (0 : Int) (10 : Int)
  refine ⟨h.2.1.trans rfl, ?_⟩
  exact h.2.2 (recAB :: [])
    (projectAdmin recAB :: [], 1, (1 : Int), 1) rfl

/-- C7: the search and list routes only read: the record store each
returns is the store it was given, unchanged, and nickname padding
appears only in the public output views, never in a stored record. -/
theorem routes_read_only (db : List UserRecord) (q : Option (List Char))
    (role : Option UserRole) (page size : Nat) (sort : SortField)
    (order : SortOrder) (skip limit : Int) :
    (public_search_users db q role page size sort order).1 = db
    ∧ (∀ v, v ∈ (public_search_users db q role page size sort order).2.1 →
        3 ≤ v.nickname.length)
    ∧ (∀ st resp, admin_list_users db skip limit = some (st, resp) →
        st = db) := by
  refine ⟨rfl, ?_, ?_⟩
  · intro v hv
    simp only [public_search_users, List.mem_map] at hv
    obtain ⟨u, _, rfl⟩ := hv
    exact safe_nick_length u.nickname
  · intro st resp h
    simp only [admin_list_users, adminListPage] at h
    by_cases hl : limit = 0
    · simp [hl] at h
    · simp only [hl, if_false] at h
      cases h
      rfl

/-- C7 witness: on a concrete one-record store the public route hands
the store back unchanged and the projected item is padded. -/
theorem routes_read_only_witness :
    (public_search_users (recAB :: []) none none 1 5 SortField.created_at
        SortOrder.desc).1 = recAB :: []
    ∧ 3 ≤ (projectPublic recAB).nickname.length := by
  have h := routes_read_only (recAB :: []) none none 1 5
    SortField.created_at SortOrder.desc 0 10
  exact ⟨h.1, h.2.1 (projectPublic recAB) (by decide)⟩

/-- The literal "created_at". -/
def sCreatedAt : List Char :=
  'c' :: 'r' :: 'e' :: 'a' :: 't' :: 'e' :: 'd' :: '_' :: 'a' :: 't' :: []

/-- The literal "email". -/
def sEmail : List Char := 'e' :: 'm' :: 'a' :: 'i' :: 'l' :: []

/-- The literal "nickname". -/
def sNickname : List Char :=
  'n' :: 'i' :: 'c' :: 'k' :: 'n' :: 'a' :: 'm' :: 'e' :: []

/-- The literal "last_name". -/
def sLastName : List Char :=
  'l' :: 'a' :: 's' :: 't' :: '_' :: 'n' :: 'a' :: 'm' :: 'e' :: []

/-- The literal "asc". -/
def sAsc : List Char := 'a' :: 's' :: 'c' :: []

/-- The literal "desc". -/
def sDesc : List Char := 'd' :: 'e' :: 's' :: 'c' :: []

/-- The sort-parameter validation of `public_search_users` (lines
266-267): the anchored patterns
`^(created_at|email|nickname|last_name)$` and `^(asc|desc)$`, i.e.
exact membership in the two enumerated sets; a request passes iff both
hold. -/
def validSortParams (sort order : List Char) : Bool :=
  (sort == sCreatedAt || sort == sEmail || sort == sNickname
    || sort == sLastName)
  && (order == sAsc || order == sDesc)

/-- C6: the request is rejected for its sort parameters (InvalidSort)
exactly when the sort field is outside {created_at, email, nickname,
last_name} or the order is outside {asc, desc}; values inside both sets
are never rejected. -/
theorem invalidSort_rejection_iff (sort order : List Char) :
    validSortParams sort order = false ↔
      (sort ∉ (sCreatedAt :: sEmail :: sNickname :: sLastName
          :: ([] : List (List Char)))
       ∨ order ∉ (sAsc :: sDesc :: ([] : List (List Char)))) := by
  rw [Bool.eq_false_iff, Ne, ← not_and_or]
  constructor
  · intro h hc
    apply h
    simp only [validSortParams, Bool.and_eq_true, Bool.or_eq_true,
      beq_iff_eq]
    rcases hc with ⟨hs, ho⟩
    simp only [List.mem_cons, List.not_mem_nil, or_false] at hs ho
    exact ⟨by tauto, by tauto⟩
  · intro h hc
    apply h
    simp only [validSortParams, Bool.and_eq_true, Bool.or_eq_true,
      beq_iff_eq] at hc
    simp only [List.mem_cons, List.not_mem_nil, or_false]
    exact ⟨by tauto, by tauto⟩

/-- C6 witness: "created_at"/"asc" is not rejected, while the sort field
"name" is rejected. -/
theorem invalidSort_rejection_iff_witness :
    validSortParams sCreatedAt sAsc = true
    ∧ validSortParams ('n' :: 'a' :: 'm' :: 'e' :: []) sAsc = false := by
  constructor
  · decide
  · exact (invalidSort_rejection_iff ('n' :: 'a' :: 'm' :: 'e' :: [])
      sAsc).2 (Or.inl (by decide))

/-- Uniqueness of emails across the record store (spec section 3
invariant). -/
def EmailUnique (db : List UserRecord) : Prop :=
  List.Pairwise (fun a b => a.email ≠ b.email) db

/-- The error message "Email already exists". -/
def emailExistsMsg : List Char :=
  'E' :: 'm' :: 'a' :: 'i' :: 'l' :: ' ' :: 'a' :: 'l' :: 'r' :: 'e'
    :: 'a' :: 'd' :: 'y' :: ' ' :: 'e' :: 'x' :: 'i' :: 's' :: 't'
    :: 's' :: []

/-- The `create_user` route (lines 149-157): if a record with the email
exists (`UserService.get_by_email`), reject with 400 "Email already
exists"; otherwise add the record to the store. -/
def create_user (db : List UserRecord) (u : UserRecord) :
    Except (Nat × List Char) (List UserRecord) :=
  if db.any (fun v => v.email == u.email) then
    Except.error (400, emailExistsMsg)
  else
    Except.ok (db ++ u :: [])

/-- The `register` route (lines 163-174), whose duplicate check lives in
`UserService.register_user`. Modelled from the spec:
`app/services/user_service.py` is not under src/; per the spec's email
uniqueness invariant the service refuses a duplicate email (surfaced by
the route as 400 "Email already exists") and otherwise adds the
record. -/
def register (db : List UserRecord) (u : UserRecord) :
    Except (Nat × List Char) (List UserRecord) :=
  if db.any (fun v => v.email == u.email) then
    Except.error (400, emailExistsMsg)
  else
    Except.ok (db ++ u :: [])

/-- C8: email uniqueness is an invariant: a create or register request
for an email already present fails with "Email already exists" (adding
nothing, since the error carries no new store), and any store a
successful create or register returns is again duplicate-free. -/
theorem email_unique_invariant (db : List UserRecord) (u : UserRecord)
    (hdb : EmailUnique db) :
    ((∃ v ∈ db, v.email = u.email) →
        create_user db u = Except.error (400, emailExistsMsg)
        ∧ register db u = Except.error (400, emailExistsMsg))
    ∧ (∀ db', create_user db u = Except.ok db' → EmailUnique db')
    ∧ (∀ db', register db u = Except.ok db' → EmailUnique db') := by
  constructor
  · intro hex
    have h : db.any (fun v => v.email == u.email) = true := by
      rcases hex with ⟨v, hv, he⟩
      exact List.any_eq_true.2 ⟨v, hv, beq_iff_eq.2 he⟩
    exact ⟨by simp [create_user, h], by simp [register, h]⟩
  · by_cases h : db.any (fun v => v.email == u.email) = true
    · constructor <;> intro db' hdb' <;>
        simp [create_user, register, h] at hdb'
    · have hall : ∀ v ∈ db, v.email ≠ u.email := by
        intro v hv he
        exact h (List.any_eq_true.2 ⟨v, hv, beq_iff_eq.2 he⟩)
      have hnew : EmailUnique (db ++ u :: []) := by
        rw [EmailUnique, List.pairwise_append]
        refine ⟨hdb, List.pairwise_singleton _ _, ?_⟩
        intro a ha b hb
        simp only [List.mem_singleton] at hb
        subst hb
        exact hall a ha
      constructor <;> intro db' hdb'
      · unfold create_user at hdb'
        rw [if_neg h] at hdb'
        injection hdb' with h2
        exact h2 ▸ hnew
      · unfold register at hdb'
        rw [if_neg h] at hdb'
        injection hdb' with h2
        exact h2 ▸ hnew

/-- C8 witness: creating a record with an email already stored is
rejected with "Email already exists", and a successful create into the
empty store yields a duplicate-free store. -/
theorem email_unique_invariant_witness :
    create_user (recAB :: []) recAB = Except.error (400, emailExistsMsg)
    ∧ EmailUnique (recAB :: []) := by
  constructor
  · exact ((email_unique_invariant (recAB :: []) recAB
      (List.pairwise_singleton _ _)).1 ⟨recAB, List.mem_singleton.2 rfl,
        rfl⟩).1
  · exact (email_unique_invariant [] recAB List.Pairwise.nil).2.1
      (recAB :: []) rfl

/-- C9: `admin_list_users` accepts any integer `skip` and `limit` (no
range validation on the query parameters) and its page computation
`skip // limit + 1` is defined exactly when `limit ≠ 0`: division by
zero is avoided only if the caller never passes `limit = 0`. -/
theorem adminListPage_defined_iff (skip limit : Int) :
    ((adminListPage skip limit).isSome ↔ limit ≠ 0)
    ∧ (limit ≠ 0 →
        adminListPage skip limit = some (Int.fdiv skip limit + 1))
    ∧ (limit = 0 → adminListPage skip limit = none) := by
  refine ⟨?_, ?_, ?_⟩
  · by_cases h : limit = 0 <;> simp [adminListPage, h]
  · intro h; simp [adminListPage, h]
  · intro h; simp [adminListPage, h]

/-- C9 witness: `skip = 10, limit = 10` yields page 2; `limit = 0` is
the division-by-zero branch. -/
theorem adminListPage_defined_iff_witness :
    adminListPage 10 10 = some 2 ∧ adminListPage 10 0 = none := by
  constructor
  · rw [(adminListPage_defined_iff 10 10).2.1 (by decide)]
    decide
  · exact (adminListPage_defined_iff 10 0).2.2 rfl

/-- The two failure modes of the `login` route, with the HTTP status
each is surfaced as. -/
inductive LoginError where
  | accountLocked
  | incorrectCredentials
deriving DecidableEq, Repr

/-- The HTTP status of a login failure: 400 for the lockout rejection,
401 for bad credentials. -/
def LoginError.status : LoginError → Nat
  | .accountLocked => 400
  | .incorrectCredentials => 401

/-- The `login` route (lines 177-199): the lockout check
(`UserService.is_account_locked`, keyed by the username only) runs
first and rejects with 400; only then are the credentials checked
(`UserService.login_user`), rejecting with 401 on failure; on success a
token is minted from the user's email and role name. The two service
calls live outside src/ and are abstract parameters. -/
def login (isLocked : List Char → Bool)
    (loginUser : List Char → List Char → Option UserRecord)
    (mkToken : List Char → List Char → List Char)
    (username password : List Char) : Except LoginError (List Char) :=
  if isLocked username then Except.error LoginError.accountLocked
  else
    match loginUser username password with
    | none => Except.error LoginError.incorrectCredentials
    | some u => Except.ok (mkToken u.email u.role.name)

/-- C10: the lockout check precedes credential verification: a locked
account is rejected with the 400 lockout error for every password, and
the 401 incorrect-credentials rejection can only happen for an account
that is not locked. -/
theorem login_lockout_precedes_credentials (isLocked : List Char → Bool)
    (loginUser : List Char → List Char → Option UserRecord)
    (mkToken : List Char → List Char → List Char)
    (username password : List Char) :
    (isLocked username = true →
        login isLocked loginUser mkToken username password
          = Except.error LoginError.accountLocked)
    ∧ (login isLocked loginUser mkToken username password
          = Except.error LoginError.incorrectCredentials →
        isLocked username = false)
    ∧ LoginError.accountLocked.status = 400
    ∧ LoginError.incorrectCredentials.status = 401 := by
  refine ⟨?_, ?_, rfl, rfl⟩
  · intro h
    simp [login, h]
  · intro h
    by_cases hl : isLocked username = true
    · rw [login, if_pos hl] at h
      exact absurd (Except.error.inj h) (by decide)
    · exact Bool.eq_false_iff.2 hl
  
/-- C10 witness: a locked account with a password that would verify is
still rejected with the 400 lockout error. -/
theorem login_lockout_precedes_credentials_witness :
    login (fun _ => true) (fun _ _ => some recAB) (fun e _ => e)
        recAB.email ('p' :: 'w' :: [])
      = Except.error LoginError.accountLocked :=
  (login_lockout_precedes_credentials (fun _ => true)
    (fun _ _ => some recAB) (fun e _ => e) recAB.email
    ('p' :: 'w' :: [])).1 rfl
